import Mathlib

set_option linter.unusedVariables false

/-! Shallow embedding of the request-batching execution core of the PyTorch
backend (`src/libtorch.cc`, `ModelInstanceState`), together with theorems
checking the natural-language specification against it. Machine integers are
modelled as `Nat`/`Int` (no overflow is relevant on the valid domain), the
opaque model call and the injectable failures of the external collaborators
(response creation, buffer allocation) are explicit parameters, and each
pipeline stage is a pure function on an explicit response-ledger state. -/

/-- Error classification codes (`TRITONSERVER_Error_Code`). -/
inductive ErrClass
  | internal
  | invalidArg
  | unavailable
  | unsupported
  deriving DecidableEq, Repr

/-- A structured error (`TRITONSERVER_Error`): classification plus message. -/
structure TErr where
  cls : ErrClass
  msg : String
  deriving DecidableEq, Repr

/-- One named input tensor of a request: name, datatype code and shape
(`TRITONBACKEND_InputProperties`). -/
structure InputTensor where
  name : String
  dtype : Nat
  shape : List Nat
  deriving DecidableEq, Repr

/-- A front-end request: an ordered list of named input tensors. -/
structure Request where
  inputs : List InputTensor
  deriving DecidableEq, Repr

/-- A positional result tensor produced by the model. -/
structure ResultTensor where
  dtype : Nat
  shape : List Nat
  deriving DecidableEq, Repr

/-- Outcome of `torch_model_->forward`: a single tensor, an ordered tuple of
tensors, or a raised exception (libtorch.cc 782-805). -/
inductive ModelOut
  | single (t : ResultTensor)
  | tuple (ts : List ResultTensor)
  | raises (msg : String)
  deriving DecidableEq, Repr

/-- Per-instance schema state built once by validation (libtorch.cc 259-264):
the name-to-index maps for inputs and outputs, the output datatype map, and
the ordered declared output names from the configuration. `maxBatchSize` is
the configured maximum batch size (non-negative by configuration validation,
hence a `Nat`). -/
structure InstanceCfg where
  maxBatchSize : Nat
  inputIndexMap : List (String × Int)
  outputIndexMap : List (String × Int)
  outputDtypeMap : List (String × Nat)
  outputNames : List String
  deriving DecidableEq, Repr

/-- Injected behaviour of the external collaborators during one cycle:
whether `TRITONBACKEND_ResponseNew` fails for slot `i`, whether
`BackendMemory::Create` fails for input `i`, and what the model call does. -/
structure Env where
  respOpenFails : List Bool
  allocFails : List Bool
  modelOut : ModelOut
  deriving DecidableEq, Repr

/-- Read of `std::unordered_map<std::string,int>::operator[]`: an absent key
yields the value-initialized default `0`. -/
def mapLookup (m : List (String × Int)) (k : String) : Int :=
  ((m.find? (fun p => p.1 == k)).map (fun p => p.2)).getD 0

/-- Read of `std::unordered_map<std::string,TRITONSERVER_DataType>::operator[]`
with default `0` for an absent key. -/
def dtypeLookup (m : List (String × Nat)) (k : String) : Nat :=
  ((m.find? (fun p => p.1 == k)).map (fun p => p.2)).getD 0

/-- The state of a per-request response slot during a cycle: still open (with
the outputs scattered into it so far), never created (`TRITONBACKEND_ResponseNew`
failed, slot is the null pointer from the start), or resolved by an error
send (slot nulled out after `TRITONBACKEND_ResponseSend` with the error). -/
inductive SlotState
  | opened (written : List String)
  | openFailed
  | errored (e : TErr)
  deriving DecidableEq, Repr

/-- Terminal per-request outcome of a cycle after the final send loop. -/
inductive SlotOutcome
  | success (written : List String)
  | openFailed
  | errored (e : TErr)
  deriving DecidableEq, Repr

/-- Whether the outcome is an error response of classification `c`. -/
def SlotOutcome.isErroredWith : SlotOutcome → ErrClass → Bool
  | .errored e, c => e.cls == c
  | _, _ => false

/-- Whether the outcome is a successful final response. -/
def SlotOutcome.isSuccess : SlotOutcome → Bool
  | .success _ => true
  | _ => false

/-- Modelled from the spec: `SendErrorForResponses` lives in the
backend-common collaborator, not in this repository. An error is "sent to
all still-open responses", a slot already
resolved (null) is "idempotently skipped", and a slot becomes permanently
empty the moment an error is sent for it. -/
def sendErrAll (e : TErr) (slots : List SlotState) : List SlotState :=
  slots.map (fun s => match s with
    | .opened _ => .errored e
    | x => x)

/-- Modelled from the spec: `BackendOutputResponder::ProcessTensor` lives in
the backend-common collaborator. The scatter-copy for one named output
writes it into every still-open response slot and never touches an emptied
slot. -/
def scatterTo (n : String) (slots : List SlotState) : List SlotState :=
  slots.map (fun s => match s with
    | .opened w => .opened (w ++ [n])
    | x => x)

/-- Error for a null request in the batch (libtorch.cc 541-549,
`TRITONSERVER_ERROR_INTERNAL`). -/
def nullRequestErr : TErr :=
  ⟨.internal, "null request given to PyTorch backend"⟩

/-- Error returned by `TRITONBACKEND_RequestInputByIndex` when the request
has no input at index 0; declared but not defined in this repository, the
classification is taken from the serving core collaborator. -/
def inputReadErr : TErr :=
  ⟨.invalidArg, "unable to read request input at index 0"⟩

/-- Batch-size overflow error (libtorch.cc 585-595,
`TRITONSERVER_ERROR_INTERNAL`). -/
def overflowErr (t m : Nat) : TErr :=
  ⟨.internal,
    "batch size " ++ Nat.repr t ++ ", max allowed is " ++ Nat.repr m⟩

/-- Modelled from the spec: the error of `BackendMemory::Create`
(backend-common collaborator, call site libtorch.cc 866-874) — "allocation
failure or copy failure propagate as an internal error sent to all
still-open responses". -/
def allocErr : TErr :=
  ⟨.internal, "failed to allocate input buffer"⟩

/-- Model-exception error (libtorch.cc 797-804,
`TRITONSERVER_ERROR_INTERNAL`). -/
def modelErr (m : String) : TErr :=
  ⟨.internal, "PyTorch execute failure: " ++ m⟩

/-- Invalid-output-index error (libtorch.cc 707-717,
`TRITONSERVER_ERROR_INVALID_ARG`). -/
def idxErr (n : String) (numOut : Nat) : TErr :=
  ⟨.invalidArg,
    "The output " ++ n ++
      " in the model configuration refers to an output index which does not exist. This model has " ++
      Nat.repr numOut ++ " outputs"⟩

/-- Output-datatype-mismatch error (libtorch.cc 940-950,
`TRITONSERVER_ERROR_INVALID_ARG`); it names the mismatching output. -/
def mismatchErr (n : String) (got expecting : Nat) : TErr :=
  ⟨.invalidArg,
    "unexpected datatype TYPE_" ++ Nat.repr got ++ " for inference output " ++
      n ++ ", expecting TYPE_" ++ Nat.repr expecting⟩

/-- Result of the batch-size accumulation loop: either a fatal condition that
aborts the cycle via `RequestsRespondWithError`, or the computed total. -/
inductive AccumOut
  | fatal (e : TErr)
  | total (t : Nat)
  deriving DecidableEq, Repr

/-- The batch-size accumulation loop of `ProcessRequests`
(libtorch.cc 536-572): per request, first the null check, then — when
batching is enabled — the leading dimension of the first input is added to
the running total, otherwise 1 is added. -/
def accumGo (maxB : Nat) : List (Option Request) → Nat → AccumOut
  | [], acc => .total acc
  | none :: _, _ => .fatal nullRequestErr
  | some r :: rest, acc =>
    if 0 < maxB then
      match r.inputs with
      | [] => .fatal inputReadErr
      | t :: _ => accumGo maxB rest (acc + t.shape.headD 0)
    else
      accumGo maxB rest (acc + 1)

/-- The response-ledger creation loop (libtorch.cc 612-623): one slot per
request; a failed `TRITONBACKEND_ResponseNew` records the null slot and the
loop continues. -/
def openLedger (fails : List Bool) (n : Nat) : List SlotState :=
  (List.range n).map (fun i => if fails.getD i false then .openFailed else .opened [])

/-- The unchecked store `(*input_tensors)[idx] = tensor` of libtorch.cc 896,
made explicit: an in-bounds store updates the vector, an out-of-bounds index
is the undefined-behaviour marker `none`. -/
def setVecAt (v : List (Option String)) (i : Int) (x : String) :
    Option (List (Option String)) :=
  if 0 ≤ i ∧ i.toNat < v.length then some (v.set i.toNat (some x)) else none

/-- Result of input marshalling: the ledger after it, the positional argument
vector (`none` once an out-of-bounds store occurred), and whether an
allocation failure aborted the remainder of the marshalling loop. -/
structure MarshalRes where
  slots : List SlotState
  argVec : Option (List (Option String))
  aborted : Bool
  deriving DecidableEq, Repr

/-- The per-input marshalling loop of `SetInputTensors`
(libtorch.cc 827-897): for input `i` of the representative request, an
allocation failure sends an internal error to all still-open responses and
returns (`RESPOND_ALL_AND_RETURN_IF_ERROR`); otherwise the wrapped tensor is
stored at the parsed positional index of its name, with no range check. -/
def marshalGo (imap : List (String × Int)) (af : List Bool) :
    Nat → List InputTensor → List SlotState →
      Option (List (Option String)) → MarshalRes
  | _, [], slots, vec => ⟨slots, vec, false⟩
  | i, t :: rest, slots, vec =>
    if af.getD i false then
      ⟨sendErrAll allocErr slots, vec, true⟩
    else
      marshalGo imap af (i + 1) rest slots
        (vec.bind (fun v => setVecAt v (mapLookup imap t.name) t.name))

/-- Embedding of `SetInputTensors` (libtorch.cc 807-901): the positional argument vector
is resized to the representative request's input count, then the marshalling
loop runs. -/
def setInputTensors (imap : List (String × Int)) (af : List Bool)
    (reps : List InputTensor) (slots : List SlotState) : MarshalRes :=
  marshalGo imap af 0 reps slots (some (List.replicate reps.length none))

/-- Normalization of the model result to an ordered list of positional result
tensors (libtorch.cc 786-795). -/
def modelTensors : ModelOut → List ResultTensor
  | .single t => [t]
  | .tuple ts => ts
  | .raises _ => []

/-- Result of `Execute`: the ledger after it and the collected output
tensors. -/
structure ExecRes where
  slots : List SlotState
  outs : List ResultTensor
  deriving DecidableEq, Repr

/-- Embedding of `Execute` (libtorch.cc 773-805): the model is invoked; an exception is
caught and converted to an internal error sent to every still-open response,
leaving the output list empty. -/
def execModel (mo : ModelOut) (slots : List SlotState) : ExecRes :=
  match mo with
  | .raises m => ⟨sendErrAll (modelErr m) slots, []⟩
  | mo => ⟨slots, modelTensors mo⟩

/-- The output-index validation loop of `ProcessRequests`
(libtorch.cc 701-721): the first declared output whose mapped index is
negative or larger than `output_tensors.size() - 1`, if any (the loop breaks
at the first hit). -/
def findInvalidIdx (omap : List (String × Int)) (numOut : Nat) :
    List String → Option String
  | [] => none
  | n :: rest =>
    if mapLookup omap n < 0 ∨ (numOut : Int) - 1 < mapLookup omap n then some n
    else findInvalidIdx omap numOut rest

/-- Result of `ReadOutputTensors`: the ledger after it and the list of
declared outputs that were actually scattered, in order. -/
structure ReadRes where
  slots : List SlotState
  processed : List String
  deriving DecidableEq, Repr

/-- Default tensor for the (pipeline-guarded) vector read. -/
def dfltTensor : ResultTensor := ⟨0, []⟩

/-- Embedding of `ReadOutputTensors` (libtorch.cc 903-979): per declared output, the
positional result is located and its datatype compared with the configured
one; a mismatch sends an invalid-argument error to all still-open responses
and returns from the function (`RESPOND_ALL_AND_RETURN_IF_ERROR`), otherwise
the output is scattered into every still-open response. -/
def readOutputTensors (omap : List (String × Int)) (dmap : List (String × Nat))
    (outs : List ResultTensor) : List String → List SlotState → ReadRes
  | [], slots => ⟨slots, []⟩
  | n :: rest, slots =>
    let t := outs.getD (mapLookup omap n).toNat dfltTensor
    if dtypeLookup dmap n ≠ t.dtype then
      ⟨sendErrAll (mismatchErr n t.dtype (dtypeLookup dmap n)) slots, []⟩
    else
      let r := readOutputTensors omap dmap outs rest (scatterTo n slots)
      ⟨r.slots, n :: r.processed⟩

/-- The final send loop (libtorch.cc 739-746): a still-open slot is sent as
the successful final response; null slots are skipped. -/
def finalSend : SlotState → SlotOutcome
  | .opened w => .success w
  | .openFailed => .openFailed
  | .errored e => .errored e

/-- Observable trace of one execution cycle: the terminal outcome per
request, whether the model forward call was reached, whether input
marshalling was entered and whether it aborted, which declared outputs were
scattered, how many per-request statistics records were reported, whether
the aggregate batch record was reported, and how many requests were
released. -/
structure CycleTrace where
  outcomes : List SlotOutcome
  modelInvoked : Bool
  marshalStarted : Bool
  marshalAborted : Bool
  processedOutputs : List String
  perRequestStats : Nat
  batchStats : Bool
  releasedCount : Nat
  deriving DecidableEq, Repr

/-- Modelled from the spec: `RequestsRespondWithError` (backend-common
collaborator) followed by `return` — every response is failed with the
error and every request is released, but the cycle ends before the
statistics-reporting step. -/
def abortTrace (n : Nat) (e : TErr) : CycleTrace :=
  ⟨List.replicate n (.errored e), false, false, false, [], 0, false, n⟩

/-- The silent `total_batch_size == 0` return (libtorch.cc 575-577): nothing
is touched. -/
def emptyTrace : CycleTrace := ⟨[], false, false, false, [], 0, false, 0⟩

/-- The representative request's inputs (`requests[0]`, libtorch.cc 820-824),
used to size and drive the marshalling loop. -/
def repInputs : List (Option Request) → List InputTensor
  | some r :: _ => r.inputs
  | _ => []

/-- The committed part of `ProcessRequests` (libtorch.cc 597-770), reached
once accumulation and the maximum-batch gate have passed: response-ledger
creation, input marshalling, model invocation, the output-index gate, output
disaggregation, the final send loop, per-request statistics and release, and
the aggregate batch record. -/
def runCycle (cfg : InstanceCfg) (env : Env)
    (reqs : List (Option Request)) : CycleTrace :=
  let slots0 := openLedger env.respOpenFails reqs.length
  let m := setInputTensors cfg.inputIndexMap env.allocFails (repInputs reqs) slots0
  let ex := execModel env.modelOut m.slots
  match findInvalidIdx cfg.outputIndexMap ex.outs.length cfg.outputNames with
  | some nm =>
    ⟨(sendErrAll (idxErr nm ex.outs.length) ex.slots).map finalSend,
      true, true, m.aborted, [], reqs.length, true, reqs.length⟩
  | none =>
    let r := readOutputTensors cfg.outputIndexMap cfg.outputDtypeMap
      ex.outs cfg.outputNames ex.slots
    ⟨r.slots.map finalSend, true, true, m.aborted, r.processed,
      reqs.length, true, reqs.length⟩

/-- Embedding of `ProcessRequests` (libtorch.cc 517-771), end to end: batch accumulation
with its fatal conditions, the empty-batch silent return, the maximum-batch
gate, then the committed cycle. -/
def processRequests (cfg : InstanceCfg) (env : Env)
    (reqs : List (Option Request)) : CycleTrace :=
  match accumGo cfg.maxBatchSize reqs 0 with
  | .fatal e => abortTrace reqs.length e
  | .total t =>
    if t = 0 then emptyTrace
    else if t ≠ 1 ∧ cfg.maxBatchSize < t then
      abortTrace reqs.length (overflowErr t cfg.maxBatchSize)
    else
      runCycle cfg env reqs

/-- Position of the first occurrence of the deliminator `"__"`
(`std::string::find("__")` at libtorch.cc 438, 485, 369, 403; `npos`
converted to `int` is `-1`, modelled as `none`). -/
def cppFindDD : List Char → Option Nat
  | [] => none
  | c :: rest =>
    if c = '_' ∧ rest.head? = some '_' then some 0
    else (cppFindDD rest).map (fun i => i + 1)

/-- Whether the character list contains the substring `"__"` (two consecutive
underscores). -/
def hasDD : List Char → Bool
  | [] => false
  | c :: rest => (c == '_' && rest.head? == some '_') || hasDD rest

/-- C `isspace` on the default locale. -/
def isSpaceC (c : Char) : Bool :=
  c == ' ' || c == '\t' || c == '\n' || c == '\x0b' || c == '\x0c' || c == '\r'

/-- Digit-consuming loop of C `atoi`: reads digits greedily from the head and
stops at the first non-digit. -/
def atoiDigits : List Char → Nat → Nat
  | c :: rest, acc =>
    if c.isDigit then atoiDigits rest (acc * 10 + (c.toNat - 48)) else acc
  | [], acc => acc

/-- C `std::atoi`: skip whitespace, optional sign, then greedy digits; `0`
when no digits follow. It never throws. -/
def cppAtoi (l : List Char) : Int :=
  match l.dropWhile isSpaceC with
  | [] => 0
  | c :: rest =>
    if c = '-' then -(atoiDigits rest 0 : Int)
    else if c = '+' then (atoiDigits rest 0 : Int)
    else (atoiDigits (c :: rest) 0 : Int)

/-- The naming-convention try-block shared by `ValidateInputs`,
`ValidateOutputs` and the sequence-control validators (libtorch.cc 437-451,
484-497, 366-383): `none` is the naming-convention error (no `"__"` found),
otherwise the index is `atoi` of the text after the first `"__"`. -/
def parseIOIndex (name : String) : Option Int :=
  match cppFindDD name.data with
  | none => none
  | some i => some (cppAtoi (name.data.drop (i + 2)))

/-- The leading dimension of a request's first input tensor, as read by the
accumulation loop. -/
def firstLeadingDim : Option Request → Nat
  | some r =>
    match r.inputs with
    | t :: _ => t.shape.headD 0
    | [] => 0
  | none => 0

/-! ### Structural lemmas about the pipeline stages -/

/-- Whether a slot is no longer open. -/
def slotClosed : SlotState → Bool
  | .opened _ => false
  | _ => true

theorem sendErrAll_length (e : TErr) (s : List SlotState) :
    (sendErrAll e s).length = s.length := by
  simp [sendErrAll]

theorem scatterTo_length (n : String) (s : List SlotState) :
    (scatterTo n s).length = s.length := by
  simp [scatterTo]

theorem openLedger_length (fails : List Bool) (n : Nat) :
    (openLedger fails n).length = n := by
  simp [openLedger]

theorem marshalGo_slots (imap : List (String × Int)) (af : List Bool) :
    ∀ (i : Nat) (inputs : List InputTensor) (slots : List SlotState)
      (vec : Option (List (Option String))),
      (marshalGo imap af i inputs slots vec).slots = slots ∨
      (marshalGo imap af i inputs slots vec).slots = sendErrAll allocErr slots := by
  intro i inputs
  induction inputs generalizing i with
  | nil => intro slots vec; left; rfl
  | cons t rest ih =>
    intro slots vec
    by_cases h : af.getD i false = true
    · right
      simp only [marshalGo, if_pos h]
    · have hrec := ih (i + 1) slots
        (vec.bind fun v => setVecAt v (mapLookup imap t.name) t.name)
      simpa only [marshalGo, if_neg h] using hrec

theorem marshalGo_length (imap : List (String × Int)) (af : List Bool)
    (i : Nat) (inputs : List InputTensor) (slots : List SlotState)
    (vec : Option (List (Option String))) :
    (marshalGo imap af i inputs slots vec).slots.length = slots.length := by
  rcases marshalGo_slots imap af i inputs slots vec with h | h <;>
    rw [h] <;> simp [sendErrAll]

theorem execModel_slots (mo : ModelOut) (slots : List SlotState) :
    (execModel mo slots).slots = slots ∨
    ∃ m, (execModel mo slots).slots = sendErrAll (modelErr m) slots := by
  cases mo with
  | raises m => right; exact ⟨m, rfl⟩
  | single t => left; rfl
  | tuple ts => left; rfl

theorem execModel_length (mo : ModelOut) (slots : List SlotState) :
    (execModel mo slots).slots.length = slots.length := by
  rcases execModel_slots mo slots with h | ⟨m, h⟩ <;> rw [h] <;> simp [sendErrAll]

theorem readOT_slots_length (omap : List (String × Int))
    (dmap : List (String × Nat)) (outs : List ResultTensor) :
    ∀ (names : List String) (slots : List SlotState),
      (readOutputTensors omap dmap outs names slots).slots.length = slots.length := by
  intro names
  induction names with
  | nil => intro slots; rfl
  | cons n rest ih =>
    intro slots
    simp only [readOutputTensors]
    split
    · simp [sendErrAll]
    · simp [ih, scatterTo]

theorem sendErrAll_of (e : TErr) (s : List SlotState) (i : Nat)
    (h : s[i]? = some .openFailed) : (sendErrAll e s)[i]? = some .openFailed := by
  unfold sendErrAll
  rw [List.getElem?_map, h]
  rfl

theorem scatterTo_of (n : String) (s : List SlotState) (i : Nat)
    (h : s[i]? = some .openFailed) : (scatterTo n s)[i]? = some .openFailed := by
  unfold scatterTo
  rw [List.getElem?_map, h]
  rfl

theorem marshalGo_of (imap : List (String × Int)) (af : List Bool) (i : Nat)
    (inputs : List InputTensor) (slots : List SlotState)
    (vec : Option (List (Option String))) (j : Nat)
    (h : slots[j]? = some .openFailed) :
    (marshalGo imap af i inputs slots vec).slots[j]? = some .openFailed := by
  rcases marshalGo_slots imap af i inputs slots vec with hs | hs
  · rw [hs]; exact h
  · rw [hs]; exact sendErrAll_of _ _ _ h

theorem execModel_of (mo : ModelOut) (slots : List SlotState) (j : Nat)
    (h : slots[j]? = some .openFailed) :
    (execModel mo slots).slots[j]? = some .openFailed := by
  rcases execModel_slots mo slots with hs | ⟨m, hs⟩
  · rw [hs]; exact h
  · rw [hs]; exact sendErrAll_of _ _ _ h

theorem readOT_of (omap : List (String × Int)) (dmap : List (String × Nat))
    (outs : List ResultTensor) :
    ∀ (names : List String) (slots : List SlotState) (j : Nat),
      slots[j]? = some .openFailed →
      (readOutputTensors omap dmap outs names slots).slots[j]? =
        some .openFailed := by
  intro names
  induction names with
  | nil => intro slots j h; exact h
  | cons n rest ih =>
    intro slots j h
    simp only [readOutputTensors]
    split
    · exact sendErrAll_of _ _ _ h
    · exact ih _ j (scatterTo_of _ _ _ h)

theorem sendErrAll_closed (e : TErr) (s : List SlotState) :
    ∀ x ∈ sendErrAll e s, slotClosed x = true := by
  intro x hx
  rcases List.mem_map.mp hx with ⟨y, _, rfl⟩
  cases y <;> rfl

theorem sendErrAll_fix (e : TErr) :
    ∀ s : List SlotState, (∀ x ∈ s, slotClosed x = true) → sendErrAll e s = s := by
  intro s
  induction s with
  | nil => intro _; rfl
  | cons a s ih =>
    intro h
    have ha := h a (List.mem_cons_self _ _)
    have hs := ih (fun x hx => h x (List.mem_cons_of_mem _ hx))
    cases a with
    | opened w => simp [slotClosed] at ha
    | openFailed => simpa [sendErrAll] using hs
    | errored e2 => simpa [sendErrAll] using hs

theorem scatterTo_fix (n : String) :
    ∀ s : List SlotState, (∀ x ∈ s, slotClosed x = true) → scatterTo n s = s := by
  intro s
  induction s with
  | nil => intro _; rfl
  | cons a s ih =>
    intro h
    have ha := h a (List.mem_cons_self _ _)
    have hs := ih (fun x hx => h x (List.mem_cons_of_mem _ hx))
    cases a with
    | opened w => simp [slotClosed] at ha
    | openFailed => simpa [scatterTo] using hs
    | errored e2 => simpa [scatterTo] using hs

theorem execModel_fix (mo : ModelOut) (slots : List SlotState)
    (h : ∀ x ∈ slots, slotClosed x = true) : (execModel mo slots).slots = slots := by
  rcases execModel_slots mo slots with hs | ⟨m, hs⟩
  · exact hs
  · rw [hs]; exact sendErrAll_fix _ _ h

theorem readOT_fix (omap : List (String × Int)) (dmap : List (String × Nat))
    (outs : List ResultTensor) :
    ∀ (names : List String) (slots : List SlotState),
      (∀ x ∈ slots, slotClosed x = true) →
      (readOutputTensors omap dmap outs names slots).slots = slots := by
  intro names
  induction names with
  | nil => intro slots _; rfl
  | cons n rest ih =>
    intro slots h
    simp only [readOutputTensors]
    split
    · exact sendErrAll_fix _ _ h
    · rw [scatterTo_fix n slots h]
      exact ih slots h

/-! ### Accumulation-loop characterization -/

/-- Decidable well-formedness of one request slot: a non-null request has at
least one input tensor (the code's own stated precondition, libtorch.cc
532-534: "the batch-size, number of inputs, and size of each input has
already been checked"). -/
def hasFirstInput : Option Request → Bool
  | some r => !r.inputs.isEmpty
  | none => true

theorem hasFirstInput_ne (r : Request) (h : hasFirstInput (some r) = true) :
    r.inputs ≠ [] := by
  intro hnil
  simp [hasFirstInput, hnil] at h

theorem accumGo_char (maxB : Nat) :
    ∀ (reqs : List (Option Request)),
      (∀ o ∈ reqs, o ≠ none) →
      (0 < maxB → ∀ o ∈ reqs, hasFirstInput o = true) →
      ∀ acc, accumGo maxB reqs acc =
        .total (acc +
          (if 0 < maxB then (reqs.map firstLeadingDim).sum else reqs.length)) := by
  intro reqs
  induction reqs with
  | nil => intro _ _ acc; simp [accumGo]
  | cons o rest ih =>
    intro hnn hin acc
    have ihr := ih (fun x hx => hnn x (List.mem_cons_of_mem _ hx))
      (fun hm o ho => hin hm o (List.mem_cons_of_mem _ ho))
    cases o with
    | none => exact absurd rfl (hnn none (List.mem_cons_self _ _))
    | some r =>
      by_cases hm : 0 < maxB
      · have hne : r.inputs ≠ [] :=
          hasFirstInput_ne r (hin hm (some r) (List.mem_cons_self _ _))
        cases hr : r.inputs with
        | nil => exact absurd hr hne
        | cons t ts =>
          simp only [accumGo, if_pos hm, hr]
          rw [ihr (acc + t.shape.headD 0)]
          simp only [if_pos hm, List.map_cons, List.sum_cons]
          have hfl : firstLeadingDim (some r) = t.shape.headD 0 := by
            simp [firstLeadingDim, hr]
          rw [hfl, Nat.add_assoc]
      · simp only [accumGo, if_neg hm]
        rw [ihr (acc + 1)]
        simp only [if_neg hm, List.length_cons]
        congr 1
        omega

theorem accumGo_null (maxB : Nat) :
    ∀ (reqs : List (Option Request)),
      none ∈ reqs →
      (0 < maxB → ∀ o ∈ reqs, hasFirstInput o = true) →
      ∀ acc, accumGo maxB reqs acc = .fatal nullRequestErr := by
  intro reqs
  induction reqs with
  | nil => intro h; simp at h
  | cons o rest ih =>
    intro hmem hin acc
    cases o with
    | none => rfl
    | some r =>
      have hmem2 : none ∈ rest := by
        rcases List.mem_cons.mp hmem with h | h
        · exact absurd h (by simp)
        · exact h
      have ihr := ih hmem2 (fun hm o ho => hin hm o (List.mem_cons_of_mem _ ho))
      by_cases hm : 0 < maxB
      · have hne : r.inputs ≠ [] :=
          hasFirstInput_ne r (hin hm (some r) (List.mem_cons_self _ _))
        cases hr : r.inputs with
        | nil => exact absurd hr hne
        | cons t ts =>
          simp only [accumGo, if_pos hm, hr]
          exact ihr _
      · simp only [accumGo, if_neg hm]
        exact ihr _

/-! ### Dispatch of `processRequests` into its phases -/

theorem processRequests_fatal (cfg : InstanceCfg) (env : Env)
    (reqs : List (Option Request)) (e : TErr)
    (h : accumGo cfg.maxBatchSize reqs 0 = .fatal e) :
    processRequests cfg env reqs = abortTrace reqs.length e := by
  unfold processRequests
  rw [h]

theorem processRequests_overflow (cfg : InstanceCfg) (env : Env)
    (reqs : List (Option Request)) (t : Nat)
    (h : accumGo cfg.maxBatchSize reqs 0 = .total t) (h1 : t ≠ 1)
    (h2 : cfg.maxBatchSize < t) :
    processRequests cfg env reqs =
      abortTrace reqs.length (overflowErr t cfg.maxBatchSize) := by
  unfold processRequests
  rw [h]
  have ht0 : t ≠ 0 := by omega
  simp only [if_neg ht0, if_pos (And.intro h1 h2)]

theorem processRequests_run (cfg : InstanceCfg) (env : Env)
    (reqs : List (Option Request)) (t : Nat)
    (h : accumGo cfg.maxBatchSize reqs 0 = .total t) (ht0 : t ≠ 0)
    (hgate : ¬(t ≠ 1 ∧ cfg.maxBatchSize < t)) :
    processRequests cfg env reqs = runCycle cfg env reqs := by
  unfold processRequests
  rw [h]
  simp only [if_neg ht0, if_neg hgate]

theorem runCycle_fields (cfg : InstanceCfg) (env : Env)
    (reqs : List (Option Request)) :
    (runCycle cfg env reqs).perRequestStats = reqs.length ∧
    (runCycle cfg env reqs).batchStats = true ∧
    (runCycle cfg env reqs).releasedCount = reqs.length ∧
    (runCycle cfg env reqs).modelInvoked = true ∧
    (runCycle cfg env reqs).marshalStarted = true := by
  simp only [runCycle]
  split <;> simp

theorem runCycle_outcomes_length (cfg : InstanceCfg) (env : Env)
    (reqs : List (Option Request)) :
    (runCycle cfg env reqs).outcomes.length = reqs.length := by
  simp only [runCycle]
  split
  · simp [sendErrAll_length, execModel_length, setInputTensors,
      marshalGo_length, openLedger_length]
  · simp [readOT_slots_length, execModel_length, setInputTensors,
      marshalGo_length, openLedger_length]

/-! ### Ledger and marshalling helper lemmas -/

theorem openLedger_of (fails : List Bool) (n i : Nat) (hi : i < n)
    (hf : fails.getD i false = true) :
    (openLedger fails n)[i]? = some SlotState.openFailed := by
  unfold openLedger
  rw [List.getElem?_map, List.getElem?_range hi]
  simp only [List.getD, List.get?_eq_getElem?] at hf
  simp [hf]

theorem openLedger_nil (n : Nat) :
    openLedger [] n = List.replicate n (SlotState.opened []) := by
  unfold openLedger
  have h : ∀ i ∈ List.range n,
      (if ([] : List Bool).getD i false then SlotState.openFailed
        else SlotState.opened []) = SlotState.opened [] := by
    intro i _
    simp [List.getD]
  rw [List.map_congr_left h]
  simp [List.map_const']

theorem ledger_err_outcomes (e : TErr) (fails : List Bool) (n : Nat) :
    (sendErrAll e (openLedger fails n)).map finalSend =
      (List.range n).map
        (fun i => if fails.getD i false then SlotOutcome.openFailed
          else SlotOutcome.errored e) := by
  unfold openLedger sendErrAll
  rw [List.map_map, List.map_map]
  apply List.map_congr_left
  intro i _
  by_cases h : fails.getD i false = true
  · simp only [List.getD, List.get?_eq_getElem?] at h
    simp [h, Function.comp, finalSend]
  · simp only [List.getD, List.get?_eq_getElem?] at h
    simp [h, Function.comp, finalSend]

theorem runCycle_closed_outcomes (cfg : InstanceCfg) (env : Env)
    (reqs : List (Option Request)) (slots1 : List SlotState)
    (hm : (setInputTensors cfg.inputIndexMap env.allocFails (repInputs reqs)
      (openLedger env.respOpenFails reqs.length)).slots = slots1)
    (hcl : ∀ x ∈ slots1, slotClosed x = true) :
    (runCycle cfg env reqs).outcomes = slots1.map finalSend := by
  simp only [runCycle, hm]
  rw [execModel_fix env.modelOut slots1 hcl]
  split
  · rw [sendErrAll_fix _ _ hcl]
  · rw [readOT_fix _ _ _ _ _ hcl]

theorem marshalGo_none (imap : List (String × Int)) (af : List Bool) :
    ∀ (inputs : List InputTensor) (i : Nat) (slots : List SlotState),
      (marshalGo imap af i inputs slots none).argVec = none := by
  intro inputs
  induction inputs with
  | nil => intro i slots; rfl
  | cons t rest ih =>
    intro i slots
    by_cases h : af.getD i false = true
    · simp only [marshalGo, if_pos h]
    · simp only [marshalGo, if_neg h, Option.bind]
      exact ih (i + 1) slots

theorem marshalGo_nofail (imap : List (String × Int)) :
    ∀ (inputs : List InputTensor) (i : Nat) (slots : List SlotState)
      (vec : Option (List (Option String))),
      (marshalGo imap [] i inputs slots vec).slots = slots ∧
      (marshalGo imap [] i inputs slots vec).aborted = false := by
  intro inputs
  induction inputs with
  | nil => intro i slots vec; exact ⟨rfl, rfl⟩
  | cons t rest ih =>
    intro i slots vec
    have hf : ([] : List Bool).getD i false = false := by simp [List.getD]
    simp only [marshalGo, hf, Bool.false_eq_true, if_false]
    exact ih (i + 1) slots _

theorem marshalGo_vec (imap : List (String × Int)) :
    ∀ (inputs : List InputTensor) (i : Nat) (slots : List SlotState)
      (v : List (Option String)),
      ((marshalGo imap [] i inputs slots (some v)).argVec.isSome ↔
        ∀ t ∈ inputs, 0 ≤ mapLookup imap t.name ∧
          (mapLookup imap t.name).toNat < v.length) ∧
      (∀ v2, (marshalGo imap [] i inputs slots (some v)).argVec = some v2 →
        v2.length = v.length) := by
  intro inputs
  induction inputs with
  | nil =>
    intro i slots v
    constructor
    · simp [marshalGo]
    · intro v2 h
      simp only [marshalGo] at h
      cases h
      rfl
  | cons t rest ih =>
    intro i slots v
    have hf : ([] : List Bool).getD i false = false := by simp [List.getD]
    by_cases hidx : 0 ≤ mapLookup imap t.name ∧
        (mapLookup imap t.name).toNat < v.length
    · have hset : setVecAt v (mapLookup imap t.name) t.name =
          some (v.set (mapLookup imap t.name).toNat (some t.name)) := by
        simp [setVecAt, hidx]
      have hlen : (v.set (mapLookup imap t.name).toNat (some t.name)).length =
          v.length := by simp
      have ihr := ih (i + 1) slots (v.set (mapLookup imap t.name).toNat (some t.name))
      constructor
      · simp only [marshalGo, hf, Bool.false_eq_true, if_false, Option.bind, hset]
        rw [ihr.1]
        simp only [hlen]
        constructor
        · intro hall
          intro x hx
          rcases List.mem_cons.mp hx with h | h
          · subst h; exact hidx
          · exact hall x h
        · intro hall x hx
          exact hall x (List.mem_cons_of_mem _ hx)
      · intro v2 h
        simp only [marshalGo, hf, Bool.false_eq_true, if_false, Option.bind, hset] at h
        rw [ihr.2 v2 h]
        exact hlen
    · have hset : setVecAt v (mapLookup imap t.name) t.name = none := by
        simp only [setVecAt, if_neg hidx]
      constructor
      · simp only [marshalGo, hf, Bool.false_eq_true, if_false, Option.bind, hset]
        rw [marshalGo_none]
        simp only [Option.isSome_none, Bool.false_eq_true, false_iff]
        intro hall
        exact hidx (hall t (List.mem_cons_self _ _))
      · intro v2 h
        simp only [marshalGo, hf, Bool.false_eq_true, if_false, Option.bind, hset] at h
        rw [marshalGo_none] at h
        cases h

/-! ### Concrete fixtures -/

/-- A request with one input of leading dimension 1. -/
def reqB : Option Request := some ⟨[⟨"INPUT__0", 1, [1, 4]⟩]⟩

/-- A request with one input of leading dimension 2. -/
def reqC : Option Request := some ⟨[⟨"INPUT__0", 1, [2, 4]⟩]⟩

/-- A simple valid configuration: max batch size 4, one declared input at
index 0, one declared output at index 0 with datatype 1. -/
def cfgOk : InstanceCfg :=
  ⟨4, [("INPUT__0", 0)], [("OUTPUT__0", 0)], [("OUTPUT__0", 1)], ["OUTPUT__0"]⟩

/-- A benign environment: no injected failures, the model returns a single
tensor of datatype 1. -/
def envOk : Env := ⟨[], [], .single ⟨1, [3, 4]⟩⟩

/-- Like `cfgOk` but with max batch size 2, for the overflow scenario. -/
def cfgSmall : InstanceCfg :=
  ⟨2, [("INPUT__0", 0)], [("OUTPUT__0", 0)], [("OUTPUT__0", 1)], ["OUTPUT__0"]⟩

/-! ### Claim C1 -/

/-- Claim C1, counterexample: with max batch size 2 and two requests of
leading dimension 2 each (total 4 > 2, total ≠ 1), every response is indeed
failed and the model is not invoked — but the error is internal-class
(`TRITONSERVER_ERROR_INTERNAL`, libtorch.cc 589), so no response carries an
invalid-argument-class error, contradicting the claim. -/
theorem C1_counterexample :
    ((processRequests cfgSmall envOk [reqC, reqC]).outcomes.any
      (fun o => o.isErroredWith .invalidArg)) = false ∧
    (processRequests cfgSmall envOk [reqC, reqC]).outcomes.length = 2 ∧
    (processRequests cfgSmall envOk [reqC, reqC]).modelInvoked = false := by
  decide

/-- Claim C1 (amended): for every execution cycle whose computed
total_batch_size is not 1 and exceeds the configured maximum batch size, the
model is never invoked, marshalling is never entered, and every response is
failed with an internal-class error describing the overflow. -/
theorem C1_amended (cfg : InstanceCfg) (env : Env)
    (reqs : List (Option Request)) (t : Nat)
    (hacc : accumGo cfg.maxBatchSize reqs 0 = .total t)
    (h1 : t ≠ 1) (h2 : cfg.maxBatchSize < t) :
    (processRequests cfg env reqs).modelInvoked = false ∧
    (processRequests cfg env reqs).marshalStarted = false ∧
    (processRequests cfg env reqs).outcomes =
      List.replicate reqs.length
        (SlotOutcome.errored (overflowErr t cfg.maxBatchSize)) ∧
    (overflowErr t cfg.maxBatchSize).cls = ErrClass.internal := by
  rw [processRequests_overflow cfg env reqs t hacc h1 h2]
  exact ⟨rfl, rfl, rfl, rfl⟩

/-- Claim C1, witness for the amended theorem at a concrete overflow cycle. -/
theorem C1_witness :
    (processRequests cfgSmall envOk [reqC, reqC]).modelInvoked = false ∧
    (processRequests cfgSmall envOk [reqC, reqC]).outcomes =
      List.replicate 2 (SlotOutcome.errored (overflowErr 4 2)) := by
  have h := C1_amended cfgSmall envOk [reqC, reqC] 4 (by decide) (by decide)
    (by decide)
  exact ⟨h.1, h.2.2.1⟩

/-! ### Claim C4 -/

/-- Claim C4, counterexample: a cycle aborted during batch accumulation (here
a single null request) releases the requests and fails the responses, but
reports neither the per-request statistics records nor the aggregate batch
record — the final bookkeeping step is not unconditional. -/
theorem C4_counterexample :
    (processRequests cfgOk envOk [none]).batchStats = false ∧
    (processRequests cfgOk envOk [none]).perRequestStats = 0 ∧
    (processRequests cfgOk envOk [none]).releasedCount = 1 := by
  decide

/-- Claim C4 (amended): the final bookkeeping step (send every still-open
response, release every request, one statistics record per request plus one
aggregate record) runs for every cycle that passes batch accumulation and
the maximum-batch gate, regardless of any later failure; a cycle aborted
during accumulation still fails every response and releases every request,
but reports no statistics. -/
theorem C4_amended (cfg : InstanceCfg) (env : Env)
    (reqs : List (Option Request)) :
    (∀ t, accumGo cfg.maxBatchSize reqs 0 = .total t → t ≠ 0 →
      ¬(t ≠ 1 ∧ cfg.maxBatchSize < t) →
      (processRequests cfg env reqs).outcomes.length = reqs.length ∧
      (processRequests cfg env reqs).perRequestStats = reqs.length ∧
      (processRequests cfg env reqs).batchStats = true ∧
      (processRequests cfg env reqs).releasedCount = reqs.length) ∧
    (∀ e, accumGo cfg.maxBatchSize reqs 0 = .fatal e →
      (processRequests cfg env reqs).outcomes =
        List.replicate reqs.length (SlotOutcome.errored e) ∧
      (processRequests cfg env reqs).releasedCount = reqs.length ∧
      (processRequests cfg env reqs).batchStats = false ∧
      (processRequests cfg env reqs).perRequestStats = 0) := by
  constructor
  · intro t hacc ht0 hgate
    rw [processRequests_run cfg env reqs t hacc ht0 hgate]
    have hf := runCycle_fields cfg env reqs
    exact ⟨runCycle_outcomes_length cfg env reqs, hf.1, hf.2.1, hf.2.2.1⟩
  · intro e hacc
    rw [processRequests_fatal cfg env reqs e hacc]
    exact ⟨rfl, rfl, rfl, rfl⟩

/-- Claim C4, witness: the amended theorem applied to a committed cycle and
to an accumulation-aborted cycle. -/
theorem C4_witness :
    ((processRequests cfgOk envOk [reqB]).batchStats = true ∧
      (processRequests cfgOk envOk [reqB]).perRequestStats = 1) ∧
    ((processRequests cfgOk envOk [none]).batchStats = false ∧
      (processRequests cfgOk envOk [none]).outcomes =
        List.replicate 1 (SlotOutcome.errored nullRequestErr)) := by
  have h1 := (C4_amended cfgOk envOk [reqB]).1 1 (by decide) (by decide)
    (by decide)
  have h2 := (C4_amended cfgOk envOk [none]).2 nullRequestErr (by decide)
  exact ⟨⟨h1.2.2.1, h1.2.1⟩, ⟨h2.2.2.1, h2.1⟩⟩

/-! ### Claim C6 -/

/-- Claim C6: a cycle containing at least one null request reference fails
every response with the internal-class null-request error, releases all
requests, and ends without entering marshalling and without invoking the
model. The side condition restricts to well-formed non-null requests (each
has a first input), matching the code's stated precondition
(libtorch.cc 532-534). -/
theorem C6_thm (cfg : InstanceCfg) (env : Env) (reqs : List (Option Request))
    (hnull : none ∈ reqs)
    (hin : 0 < cfg.maxBatchSize → ∀ o ∈ reqs, hasFirstInput o = true) :
    (processRequests cfg env reqs).outcomes =
      List.replicate reqs.length (SlotOutcome.errored nullRequestErr) ∧
    nullRequestErr.cls = ErrClass.internal ∧
    (processRequests cfg env reqs).modelInvoked = false ∧
    (processRequests cfg env reqs).marshalStarted = false ∧
    (processRequests cfg env reqs).releasedCount = reqs.length := by
  have hacc := accumGo_null cfg.maxBatchSize reqs hnull hin 0
  rw [processRequests_fatal cfg env reqs nullRequestErr hacc]
  exact ⟨rfl, rfl, rfl, rfl, rfl⟩

/-- Claim C6, witness: a concrete cycle with a null request among two. -/
theorem C6_witness :
    (processRequests cfgOk envOk [reqB, none]).outcomes =
      List.replicate 2 (SlotOutcome.errored nullRequestErr) ∧
    (processRequests cfgOk envOk [reqB, none]).modelInvoked = false := by
  have h := C6_thm cfgOk envOk [reqB, none] (by decide) (by decide)
  exact ⟨h.1, h.2.2.1⟩

/-! ### Claim C5 -/

/-- Claim C5: for a request list with at least one request, all non-null,
the computed total batch size is the sum of the leading dimensions of each
request's first input when batching is enabled, and the number of requests
when batching is disabled; in the no-batching case any total other than 1 is
rejected (every response errored, model not invoked). -/
theorem C5_thm (cfg : InstanceCfg) (env : Env) (reqs : List (Option Request))
    (hne : reqs ≠ [])
    (hnn : ∀ o ∈ reqs, o ≠ none)
    (hin : 0 < cfg.maxBatchSize → ∀ o ∈ reqs, hasFirstInput o = true) :
    accumGo cfg.maxBatchSize reqs 0 =
      .total (if 0 < cfg.maxBatchSize then (reqs.map firstLeadingDim).sum
        else reqs.length) ∧
    (cfg.maxBatchSize = 0 → reqs.length ≠ 1 →
      (processRequests cfg env reqs).modelInvoked = false ∧
      (processRequests cfg env reqs).outcomes =
        List.replicate reqs.length
          (SlotOutcome.errored (overflowErr reqs.length 0))) := by
  have hch := accumGo_char cfg.maxBatchSize reqs hnn hin 0
  refine ⟨by simpa using hch, ?_⟩
  intro hz hlen
  have hacc : accumGo cfg.maxBatchSize reqs 0 = .total reqs.length := by
    rw [hch]
    have hnp : ¬0 < cfg.maxBatchSize := by omega
    simp [hnp]
  have hl0 : reqs.length ≠ 0 := by
    intro h0
    exact hne (List.length_eq_zero.mp h0)
  have h2 : cfg.maxBatchSize < reqs.length := by omega
  rw [processRequests_overflow cfg env reqs reqs.length hacc hlen h2]
  rw [hz]
  exact ⟨rfl, rfl⟩

/-- A no-batching configuration (max batch size 0). -/
def cfgNB : InstanceCfg :=
  ⟨0, [("INPUT__0", 0)], [("OUTPUT__0", 0)], [("OUTPUT__0", 1)], ["OUTPUT__0"]⟩

/-- Claim C5, witness: a no-batching cycle with two requests (total 2 ≠ 1)
is rejected. -/
theorem C5_witness :
    (processRequests cfgNB envOk [reqB, reqB]).modelInvoked = false ∧
    (processRequests cfgNB envOk [reqB, reqB]).outcomes =
      List.replicate 2 (SlotOutcome.errored (overflowErr 2 0)) := by
  have h := C5_thm cfgNB envOk [reqB, reqB] (by decide) (by decide) (by decide)
  have h2 := h.2 rfl (by decide)
  exact ⟨h2.1, h2.2⟩

/-! ### Claim C3 -/

/-- Environment in which allocation of the first input buffer fails. -/
def envAllocFail : Env := ⟨[], [true], .single ⟨1, [1, 4]⟩⟩

/-- Claim C3, counterexample: a cycle whose input marshalling aborts on an
allocation failure still reaches `Execute` — the model is invoked
(libtorch.cc 690 runs unconditionally after `SetInputTensors` returns), so
"the remaining pipeline stages are aborted, in particular the model is not
invoked" is false. -/
theorem C3_counterexample :
    (processRequests cfgOk envAllocFail [reqB]).marshalAborted = true ∧
    (processRequests cfgOk envAllocFail [reqB]).modelInvoked = true := by
  decide

/-- Claim C3 (amended): an allocation failure during input marshalling sends
an internal error to all still-open responses and aborts only the remainder
of input marshalling; the later stages still run — the model forward call is
still reached — but every response slot is already resolved, so each
request's outcome is the internal allocation error (or a skipped slot whose
creation had failed). -/
theorem C3_amended (cfg : InstanceCfg) (env : Env)
    (reqs : List (Option Request)) (t : Nat)
    (hacc : accumGo cfg.maxBatchSize reqs 0 = .total t) (ht0 : t ≠ 0)
    (hgate : ¬(t ≠ 1 ∧ cfg.maxBatchSize < t))
    (haf : env.allocFails.getD 0 false = true)
    (hreps : repInputs reqs ≠ []) :
    (processRequests cfg env reqs).modelInvoked = true ∧
    (processRequests cfg env reqs).marshalAborted = true ∧
    allocErr.cls = ErrClass.internal ∧
    (processRequests cfg env reqs).outcomes =
      (List.range reqs.length).map
        (fun i => if env.respOpenFails.getD i false then SlotOutcome.openFailed
          else SlotOutcome.errored allocErr) := by
  rw [processRequests_run cfg env reqs t hacc ht0 hgate]
  obtain ⟨t0, rest, hrep⟩ : ∃ t0 rest, repInputs reqs = t0 :: rest := by
    cases h : repInputs reqs with
    | nil => exact absurd h hreps
    | cons a b => exact ⟨a, b, rfl⟩
  have hm : (setInputTensors cfg.inputIndexMap env.allocFails (repInputs reqs)
      (openLedger env.respOpenFails reqs.length)) =
      ⟨sendErrAll allocErr (openLedger env.respOpenFails reqs.length),
        some (List.replicate (repInputs reqs).length none), true⟩ := by
    rw [hrep]
    simp only [setInputTensors, marshalGo, if_pos haf]
  have hms : (setInputTensors cfg.inputIndexMap env.allocFails (repInputs reqs)
      (openLedger env.respOpenFails reqs.length)).slots =
      sendErrAll allocErr (openLedger env.respOpenFails reqs.length) := by
    rw [hm]
  have hcl := sendErrAll_closed allocErr (openLedger env.respOpenFails reqs.length)
  have hout := runCycle_closed_outcomes cfg env reqs _ hms hcl
  refine ⟨(runCycle_fields cfg env reqs).2.2.2.1, ?_, rfl, ?_⟩
  · simp only [runCycle, hm]
    split
    · rfl
    · rfl
  · rw [hout, ledger_err_outcomes]

/-- Claim C3, witness: a concrete single-request cycle with a failing
allocation — the response is errored with the internal allocation error and
the model is still invoked. -/
theorem C3_witness :
    (processRequests cfgOk envAllocFail [reqB]).outcomes =
      [SlotOutcome.errored allocErr] ∧
    (processRequests cfgOk envAllocFail [reqB]).modelInvoked = true := by
  have h := C3_amended cfgOk envAllocFail [reqB] 1 (by decide) (by decide)
    (by decide) (by decide) (by decide)
  refine ⟨?_, h.1⟩
  have h4 := h.2.2.2
  simpa [List.getD] using h4

/-! ### Claim C7 -/

theorem execModel_ok (mo : ModelOut) (slots : List SlotState)
    (h : ∀ msg, mo ≠ .raises msg) :
    execModel mo slots = ⟨slots, modelTensors mo⟩ := by
  cases mo with
  | raises msg => exact absurd rfl (h msg)
  | single t2 => rfl
  | tuple ts => rfl

/-- Claim C7: when some configured output's positional index is negative or
not less than the number of result tensors, an invalid-argument error is
delivered to all open responses and output disaggregation is skipped
entirely for the cycle (no output is scattered to any response). Stated for
a cycle in which all response slots opened, no allocation failed and the
model did not throw, so that every response is still open at the gate. -/
theorem C7_thm (cfg : InstanceCfg) (env : Env) (reqs : List (Option Request))
    (t : Nat) (nm : String)
    (hacc : accumGo cfg.maxBatchSize reqs 0 = .total t) (ht0 : t ≠ 0)
    (hgate : ¬(t ≠ 1 ∧ cfg.maxBatchSize < t))
    (hof : env.respOpenFails = [])
    (haf : env.allocFails = [])
    (hmo : ∀ msg, env.modelOut ≠ .raises msg)
    (hbad : findInvalidIdx cfg.outputIndexMap (modelTensors env.modelOut).length
      cfg.outputNames = some nm) :
    (processRequests cfg env reqs).processedOutputs = [] ∧
    (processRequests cfg env reqs).outcomes =
      List.replicate reqs.length
        (SlotOutcome.errored (idxErr nm (modelTensors env.modelOut).length)) ∧
    (idxErr nm (modelTensors env.modelOut).length).cls = ErrClass.invalidArg := by
  rw [processRequests_run cfg env reqs t hacc ht0 hgate]
  have hm : (setInputTensors cfg.inputIndexMap env.allocFails (repInputs reqs)
      (openLedger env.respOpenFails reqs.length)).slots =
      openLedger env.respOpenFails reqs.length := by
    rw [haf]
    exact (marshalGo_nofail cfg.inputIndexMap (repInputs reqs) 0 _ _).1
  have hexec : execModel env.modelOut (openLedger env.respOpenFails reqs.length) =
      ⟨openLedger env.respOpenFails reqs.length, modelTensors env.modelOut⟩ :=
    execModel_ok _ _ hmo
  simp only [runCycle, hm, hexec, hbad]
  refine ⟨by trivial, ?_, by trivial⟩
  rw [hof, openLedger_nil]
  simp [sendErrAll, List.map_replicate, finalSend]

/-- Configuration whose only declared output refers to positional index 5. -/
def cfgBadIdx : InstanceCfg :=
  ⟨4, [("INPUT__0", 0)], [("OUTPUT__5", 5)], [("OUTPUT__5", 1)], ["OUTPUT__5"]⟩

/-- Claim C7, witness: a model returning one tensor against a schema
referring to output index 5. -/
theorem C7_witness :
    (processRequests cfgBadIdx envOk [reqB, reqC]).processedOutputs = [] ∧
    (processRequests cfgBadIdx envOk [reqB, reqC]).outcomes =
      List.replicate 2 (SlotOutcome.errored (idxErr "OUTPUT__5" 1)) := by
  have h := C7_thm cfgBadIdx envOk [reqB, reqC] 3 "OUTPUT__5" (by decide)
    (by decide) (by decide) rfl rfl (by intro msg; simp [envOk]) (by decide)
  exact ⟨h.1, h.2.1⟩

/-! ### Claim C8 -/

/-- Claim C8: if opening the response slot for request `i` fails, that slot
stays empty for the whole cycle — no later stage writes to it or re-errors
it and the final send loop skips it (terminal outcome `openFailed`) — while
the cycle continues for the others: the model is invoked and full
bookkeeping (per-request statistics, aggregate record) still happens. -/
theorem C8_thm (cfg : InstanceCfg) (env : Env) (reqs : List (Option Request))
    (t i : Nat)
    (hacc : accumGo cfg.maxBatchSize reqs 0 = .total t) (ht0 : t ≠ 0)
    (hgate : ¬(t ≠ 1 ∧ cfg.maxBatchSize < t))
    (hi : i < reqs.length)
    (hfail : env.respOpenFails.getD i false = true) :
    (processRequests cfg env reqs).outcomes[i]? = some SlotOutcome.openFailed ∧
    (processRequests cfg env reqs).modelInvoked = true ∧
    (processRequests cfg env reqs).perRequestStats = reqs.length ∧
    (processRequests cfg env reqs).batchStats = true := by
  rw [processRequests_run cfg env reqs t hacc ht0 hgate]
  have hf := runCycle_fields cfg env reqs
  refine ⟨?_, hf.2.2.2.1, hf.1, hf.2.1⟩
  have h0 : (openLedger env.respOpenFails reqs.length)[i]? =
      some SlotState.openFailed := openLedger_of _ _ _ hi hfail
  have h1 : (setInputTensors cfg.inputIndexMap env.allocFails (repInputs reqs)
      (openLedger env.respOpenFails reqs.length)).slots[i]? =
      some SlotState.openFailed := by
    unfold setInputTensors
    exact marshalGo_of _ _ _ _ _ _ i h0
  have h2 := execModel_of env.modelOut _ i h1
  simp only [runCycle]
  split
  · rw [List.getElem?_map, sendErrAll_of _ _ _ h2]
    rfl
  · rw [List.getElem?_map, readOT_of _ _ _ _ _ i h2]
    rfl

/-- Environment in which creating the response for slot 0 fails. -/
def envOpenFail : Env := ⟨[true], [], .single ⟨1, [3, 4]⟩⟩

/-- Claim C8, witness: slot 0 fails to open; its terminal outcome is
`openFailed` and the model is still invoked. -/
theorem C8_witness :
    (processRequests cfgOk envOpenFail [reqB, reqC]).outcomes[0]? =
      some SlotOutcome.openFailed ∧
    (processRequests cfgOk envOpenFail [reqB, reqC]).modelInvoked = true := by
  have h := C8_thm cfgOk envOpenFail [reqB, reqC] 3 0 (by decide) (by decide)
    (by decide) (by decide) (by decide)
  exact ⟨h.1, h.2.1⟩

/-! ### Claim C2 -/

/-- Configuration with two declared outputs: `OUT0__0` of datatype 1 and
`OUT1__1` of datatype 2. -/
def cfgC2 : InstanceCfg :=
  ⟨4, [("INPUT__0", 0)], [("OUT0__0", 0), ("OUT1__1", 1)],
    [("OUT0__0", 1), ("OUT1__1", 2)], ["OUT0__0", "OUT1__1"]⟩

/-- Environment whose model returns two tensors; the first has datatype 9
(mismatching the declared 1), the second has the matching datatype 2. -/
def envC2 : Env := ⟨[], [], .tuple [⟨9, [3, 4]⟩, ⟨2, [3, 4]⟩]⟩

/-- Claim C2, counterexample: with two declared outputs of which only the
first mismatches (the second's datatype agrees with the model's second
tensor), the whole cycle processes no output at all — the mismatch aborts
the remaining declared outputs (`RESPOND_ALL_AND_RETURN_IF_ERROR` returns
from `ReadOutputTensors`, libtorch.cc 941), refuting the "per-output soft
failure" reading. All responses do carry an invalid-argument error. -/
theorem C2_counterexample :
    (processRequests cfgC2 envC2 [reqB, reqC]).processedOutputs = [] ∧
    ((processRequests cfgC2 envC2 [reqB, reqC]).outcomes.all
      (fun o => o.isErroredWith .invalidArg)) = true := by
  decide

/-- Claim C2 (amended): when a positional result tensor's datatype differs
from the schema's declared datatype for that output, an invalid-argument
error naming the mismatch is sent to all still-open responses and the
processing of the remaining declared outputs is aborted: the output-reading
stage returns at the first mismatch, with nothing more scattered. -/
theorem C2_amended (omap : List (String × Int)) (dmap : List (String × Nat))
    (outs : List ResultTensor) (slots : List SlotState) (n : String)
    (rest : List String)
    (hmis : dtypeLookup dmap n ≠
      (outs.getD (mapLookup omap n).toNat dfltTensor).dtype) :
    readOutputTensors omap dmap outs (n :: rest) slots =
      ⟨sendErrAll (mismatchErr n
          (outs.getD (mapLookup omap n).toNat dfltTensor).dtype
          (dtypeLookup dmap n)) slots, []⟩ ∧
    (mismatchErr n (outs.getD (mapLookup omap n).toNat dfltTensor).dtype
      (dtypeLookup dmap n)).cls = ErrClass.invalidArg ∧
    (∀ (j : Nat) (w : List String), slots[j]? = some (SlotState.opened w) →
      (readOutputTensors omap dmap outs (n :: rest) slots).slots[j]? =
        some (SlotState.errored (mismatchErr n
          (outs.getD (mapLookup omap n).toNat dfltTensor).dtype
          (dtypeLookup dmap n)))) := by
  have hr : readOutputTensors omap dmap outs (n :: rest) slots =
      ⟨sendErrAll (mismatchErr n
        (outs.getD (mapLookup omap n).toNat dfltTensor).dtype
        (dtypeLookup dmap n)) slots, []⟩ := by
    simp only [readOutputTensors, if_pos hmis]
  refine ⟨hr, rfl, ?_⟩
  intro j w hj
  rw [hr]
  unfold sendErrAll
  rw [List.getElem?_map, hj]
  rfl

/-- Claim C2, witness: the amended theorem at a concrete mismatch — both
open slots get the invalid-argument mismatch error and the second declared
output is never processed. -/
theorem C2_witness :
    readOutputTensors [("OUT0__0", 0), ("OUT1__1", 1)]
      [("OUT0__0", 1), ("OUT1__1", 2)] [⟨9, [3, 4]⟩, ⟨2, [3, 4]⟩]
      ["OUT0__0", "OUT1__1"] [SlotState.opened [], SlotState.opened []] =
      ⟨sendErrAll (mismatchErr "OUT0__0" 9 1)
        [SlotState.opened [], SlotState.opened []], []⟩ := by
  exact (C2_amended [("OUT0__0", 0), ("OUT1__1", 1)]
    [("OUT0__0", 1), ("OUT1__1", 2)] [⟨9, [3, 4]⟩, ⟨2, [3, 4]⟩]
    [SlotState.opened [], SlotState.opened []] "OUT0__0" ["OUT1__1"]
    (by decide)).1

/-! ### Claim C9 -/

theorem cppFindDD_none_iff (l : List Char) :
    cppFindDD l = none ↔ hasDD l = false := by
  induction l with
  | nil => simp [cppFindDD, hasDD]
  | cons c rest ih =>
    by_cases h : c = '_' ∧ rest.head? = some '_'
    · simp only [cppFindDD, hasDD, if_pos h]
      constructor
      · intro hc; cases hc
      · intro hc
        rcases h with ⟨h1, h2⟩
        simp [h1, h2] at hc
    · simp only [cppFindDD, hasDD, if_neg h]
      rw [Option.map_eq_none']
      rw [ih]
      constructor
      · intro hrest
        rw [hrest]
        have hx : (c == '_' && rest.head? == some '_') = false := by
          rcases Bool.eq_false_or_eq_true (c == '_' && rest.head? == some '_')
            with hb | hb
          · exfalso
            apply h
            constructor
            · exact beq_iff_eq.mp (Bool.and_elim_left hb)
            · exact beq_iff_eq.mp (Bool.and_elim_right hb)
          · exact hb
        rw [hx]
        rfl
      · intro hc
        rcases Bool.or_eq_false_iff.mp hc with ⟨_, hr⟩
        exact hr

theorem atoiDigits_stop (l : List Char) (h : ∀ c ∈ l, c.isDigit = false) :
    ∀ acc, atoiDigits l acc = acc := by
  intro acc
  cases l with
  | nil => rfl
  | cons c rest =>
    have hc := h c (List.mem_cons_self _ _)
    simp only [atoiDigits, hc, Bool.false_eq_true, if_false]

theorem cppAtoi_nodigit (l : List Char) (h : ∀ c ∈ l, c.isDigit = false) :
    cppAtoi l = 0 := by
  have hsub : ∀ c ∈ l.dropWhile isSpaceC, c.isDigit = false := by
    intro c hc
    exact h c ((List.dropWhile_sublist _).subset hc)
  unfold cppAtoi
  cases hd : l.dropWhile isSpaceC with
  | nil => rfl
  | cons c rest =>
    rw [hd] at hsub
    have hr : ∀ x ∈ rest, x.isDigit = false :=
      fun x hx => hsub x (List.mem_cons_of_mem _ hx)
    by_cases h1 : c = '-'
    · simp [if_pos h1, atoiDigits_stop rest hr]
    · by_cases h2 : c = '+'
      · simp [if_neg h1, if_pos h2, atoiDigits_stop rest hr]
      · simp [if_neg h1, if_neg h2, atoiDigits_stop (c :: rest) hsub]

/-- Claim C9: per declared input or output name, the naming-convention check
fails exactly when the name has no `"__"` substring; when the first `"__"`
is at position `i`, the parsed positional index is C `atoi` of the text
after it, and `atoi` of a text with no digit is 0 — so a name like
`"x__abc"` is accepted with index 0 rather than rejected. -/
theorem C9_thm :
    (∀ s : String, (parseIOIndex s).isNone = true ↔ hasDD s.data = false) ∧
    (∀ (s : String) (i : Nat), cppFindDD s.data = some i →
      parseIOIndex s = some (cppAtoi (s.data.drop (i + 2)))) ∧
    (∀ l : List Char, (∀ c ∈ l, c.isDigit = false) → cppAtoi l = 0) ∧
    parseIOIndex "x__abc" = some 0 := by
  refine ⟨?_, ?_, cppAtoi_nodigit, ?_⟩
  · intro s
    unfold parseIOIndex
    cases h : cppFindDD s.data with
    | none =>
      simp only [Option.isNone_none]
      exact iff_of_true trivial ((cppFindDD_none_iff _).mp h)
    | some i =>
      simp only [Option.isNone_some]
      constructor
      · intro hfalse
        cases hfalse
      · intro hdd
        have hn := (cppFindDD_none_iff s.data).mpr hdd
        rw [hn] at h
        cases h
  · intro s i h
    unfold parseIOIndex
    rw [h]
  · decide

/-- Claim C9, witness: a numeric suffix is parsed through `atoi`, a
digit-free list gives 0, and a name without `"__"` fails validation. -/
theorem C9_witness :
    parseIOIndex "a__12" = some (cppAtoi ("a__12".data.drop 3)) ∧
    cppAtoi ['z'] = 0 ∧
    (parseIOIndex "nodelim").isNone = true := by
  refine ⟨C9_thm.2.1 "a__12" 1 (by decide), C9_thm.2.2.1 ['z'] (by decide), ?_⟩
  exact (C9_thm.1 "nodelim").mpr (by decide)

/-! ### Claim C10 -/

/-- Claim C10: during input marshalling the positional argument vector is
sized to the representative request's input count, and each wrapped input
tensor is stored at its parsed positional index with no range check — the
slot ledger passes through untouched and no abort fires whatever the
indices are, and the stores are all in-bounds exactly when every declared
input's parsed index lies in `[0, input_count)`. Stated with no allocation
failures so the loop runs to completion. -/
theorem C10_thm (imap : List (String × Int)) (reps : List InputTensor)
    (slots : List SlotState) :
    ((setInputTensors imap [] reps slots).argVec.isSome ↔
      ∀ t ∈ reps, 0 ≤ mapLookup imap t.name ∧
        (mapLookup imap t.name).toNat < reps.length) ∧
    (∀ v, (setInputTensors imap [] reps slots).argVec = some v →
      v.length = reps.length) ∧
    (setInputTensors imap [] reps slots).slots = slots ∧
    (setInputTensors imap [] reps slots).aborted = false := by
  have h := marshalGo_vec imap reps 0 slots (List.replicate reps.length none)
  have h2 := marshalGo_nofail imap reps 0 slots
    (some (List.replicate reps.length none))
  refine ⟨?_, ?_, h2.1, h2.2⟩
  · simpa [setInputTensors, List.length_replicate] using h.1
  · intro v hv
    have h3 := h.2 v (by simpa [setInputTensors] using hv)
    simpa [List.length_replicate] using h3

/-- Claim C10, witness: two declared inputs with indices 0 and 1 store
in-bounds; replacing the second index by 5 makes the unchecked store go out
of bounds (no error response is produced either way). -/
theorem C10_witness :
    ((setInputTensors [("A__0", 0), ("B__1", 1)] []
      [⟨"A__0", 1, [2]⟩, ⟨"B__1", 1, [2]⟩] []).argVec.isSome = true) ∧
    ¬((setInputTensors [("A__0", 0), ("B__5", 5)] []
      [⟨"A__0", 1, [2]⟩, ⟨"B__5", 1, [2]⟩] []).argVec.isSome = true) := by
  constructor
  · exact (C10_thm [("A__0", 0), ("B__1", 1)]
      [⟨"A__0", 1, [2]⟩, ⟨"B__1", 1, [2]⟩] []).1.mpr (by decide)
  · intro hs
    have hall := (C10_thm [("A__0", 0), ("B__5", 5)]
      [⟨"A__0", 1, [2]⟩, ⟨"B__5", 1, [2]⟩] []).1.mp hs
    have hno : ¬(∀ t ∈ [(⟨"A__0", 1, [2]⟩ : InputTensor), ⟨"B__5", 1, [2]⟩],
        0 ≤ mapLookup [("A__0", 0), ("B__5", 5)] t.name ∧
          (mapLookup [("A__0", 0), ("B__5", 5)] t.name).toNat < 2) := by
      decide
    exact hno hall
